import Mathlib

/-!
Verification of robot_output_to_artifacts.py.

Shallow embedding of the converter that turns a Robot Framework result
tree into a run-artifacts JSON file, together with proofs of the spec's
claims about it.

Modelling conventions:
* Python strings are Lean `String`s; where character-level manipulation is
  required (`sanitize_id`), strings are modelled as lists of Unicode
  codepoints (`List Nat`).
* JSON values are the inductive `Json`; a Python `dict` (insertion
  ordered, unique keys) is an association list `List (String × Json)`.
* Fallible operations (`json.loads`) are modelled by their outcome: the
  manifest file is either absent, present-but-malformed (the parse error
  that `json.loads` raises), or present with its parsed object.
* The filesystem existence check for `--video-path` is a predicate
  `String → Bool` in the environment; the result tree is the materialized
  sequence of keyword-invocation nodes visited by the `ResultVisitor`.
* `datetime.timestamp()` interprets naive datetimes in the local
  timezone; the model fixes the offset at zero (UTC).
-/

/-- JSON values (numbers restricted to integers; the claims under
verification do not depend on fractional numeric values). -/
inductive Json where
  | null
  | bool (b : Bool)
  | num (n : Int)
  | str (s : String)
  | arr (elems : List Json)
  | obj (entries : List (String × Json))

/-- A Python dict with string keys, as an insertion-ordered association
list with unique keys. -/
abbrev Dict := List (String × Json)

/-- Python truthiness of a JSON value (`None`, `False`, `0`, `""`, `[]`,
`{}` are falsy). -/
def truthy : Json → Bool
  | .null => false
  | .bool b => b
  | .num n => n != 0
  | .str s => s != ""
  | .arr elems => !elems.isEmpty
  | .obj entries => !entries.isEmpty

/-- Truthiness of `dict.get(k)`: an absent key yields `None`, which is
falsy. -/
def truthyOpt : Option Json → Bool
  | none => false
  | some j => truthy j

/-- Source: `d.get(k)`: first binding of `k` (keys are unique). -/
def dget : Dict → String → Option Json
  | [], _ => none
  | (k', v) :: rest, k => if k' == k then some v else dget rest k

/-- Source: `d[k] = v`: replace the existing binding in place, else append. -/
def dset : Dict → String → Json → Dict
  | [], k, v => [(k, v)]
  | (k', v') :: rest, k, v =>
    if k' == k then (k, v) :: rest else (k', v') :: dset rest k v

/-! Component sanitize_id:

`re.sub(r"[^a-zA-Z0-9]+", "-", value.strip().lower()).strip("-") or
"robot-suite"`, modelled on codepoint sequences.  Lower-casing is
modelled on the ASCII range (the exotic Unicode mappings of `str.lower`
that produce ASCII output, e.g. KELVIN SIGN, are not modelled; they do
not affect the properties claimed). -/

/-- Codepoints of a string literal. -/
def strCodes (s : String) : List Nat := s.data.map Char.toNat

/-- Source: `str.lower` on one codepoint (ASCII range). -/
def lowerCode (n : Nat) : Nat := if 65 ≤ n ∧ n ≤ 90 then n + 32 else n

/-- The character class `[a-zA-Z0-9]` of the sanitizing regex. -/
def isAlnumCode (n : Nat) : Bool :=
  (48 ≤ n && n ≤ 57) || (65 ≤ n && n ≤ 90) || (97 ≤ n && n ≤ 122)

/-- Whitespace stripped by `str.strip()` (ASCII range). -/
def isSpaceCode (n : Nat) : Bool := n == 32 || (9 ≤ n && n ≤ 13)

/-- Source: `value.strip()`. -/
def pyStrip (l : List Nat) : List Nat :=
  ((l.dropWhile isSpaceCode).reverse.dropWhile isSpaceCode).reverse

/-- Source: `re.sub(r"[^a-zA-Z0-9]+", "-", ·)`: each maximal run of
non-alphanumerics becomes a single hyphen (codepoint 45).  The flag
records whether the previous character belonged to a run whose hyphen
was already emitted. -/
def collapseRuns : Bool → List Nat → List Nat
  | _, [] => []
  | inRun, c :: rest =>
    if isAlnumCode c then c :: collapseRuns false rest
    else if inRun then collapseRuns inRun rest
    else 45 :: collapseRuns true rest

/-- Source: `·.strip("-")`. -/
def stripDashes (l : List Nat) : List Nat :=
  (((l.dropWhile (· == 45)).reverse).dropWhile (· == 45)).reverse

/-- The cleaned slug before the emptiness fallback. -/
def cleanedOf (l : List Nat) : List Nat :=
  stripDashes (collapseRuns false ((pyStrip l).map lowerCode))

/-- The fixed fallback slug `"robot-suite"`. -/
def fallbackSlug : List Nat := strCodes "robot-suite"

/-- Source: `sanitize_id` on codepoint sequences. -/
def sanitizeCodes (l : List Nat) : List Nat :=
  if cleanedOf l = [] then fallbackSlug else cleanedOf l

/-- Source: `sanitize_id` on `String`s (bridge used by `main`). -/
def sanitize_id (s : String) : String :=
  String.mk ((sanitizeCodes (strCodes s)).map Char.ofNat)

/-! Component parse_time_ms:

`datetime.strptime` over the four format strings, modelled as a
backtracking parser per Python's `_strptime` field regexes
(`%Y` = `\d\d\d\d`, `%m` = `1[0-2]|0[1-9]|[1-9]`,
`%d` = `3[01]|[12]\d|0[1-9]|[1-9]`, `%H` = `2[0-3]|[0-1]\d|\d`,
`%M` = `[0-5]\d|\d`, `%S` = `6[0-1]|[0-5]\d|\d`, `%f` = `[0-9]{1,6}`
greedy, zero-padded to microseconds).  `re.match` yields the first
prefix parse in backtracking-preference order; `_strptime` then requires
the whole string consumed, and `datetime(...)` validates the calendar
date and rejects seconds above 59, raising `ValueError` otherwise, which
the caller catches by falling through to the next format. -/

/-- Decimal value of a digit character. -/
def dval (c : Char) : Nat := c.toNat - 48

/-- A one-digit field whose value lies in `[lo, hi]`. -/
def d1In (lo hi : Nat) : List Char → Option (Nat × List Char)
  | c :: rest =>
    if c.isDigit ∧ lo ≤ dval c ∧ dval c ≤ hi then some (dval c, rest) else none
  | [] => none

/-- A two-digit field whose value lies in `[lo, hi]`. -/
def d2In (lo hi : Nat) : List Char → Option (Nat × List Char)
  | a :: b :: rest =>
    if a.isDigit ∧ b.isDigit ∧ lo ≤ dval a * 10 + dval b ∧ dval a * 10 + dval b ≤ hi
    then some (dval a * 10 + dval b, rest) else none
  | _ => none

/-- Regex alternation: all successful branches, in pattern order. -/
def alts (ps : List (List Char → Option (Nat × List Char))) (l : List Char) :
    List (Nat × List Char) :=
  ps.foldr (fun p acc => match p l with | some r => r :: acc | none => acc) []

/-- Source: `%m`: `1[0-2]|0[1-9]|[1-9]`. -/
def pMonth : List Char → List (Nat × List Char) :=
  alts [d2In 10 12, d2In 1 9, d1In 1 9]

/-- Source: `%d`: `3[01]|[12]\d|0[1-9]|[1-9]`. -/
def pDay : List Char → List (Nat × List Char) :=
  alts [d2In 30 31, d2In 10 29, d2In 1 9, d1In 1 9]

/-- Source: `%H`: `2[0-3]|[0-1]\d|\d`. -/
def pHour : List Char → List (Nat × List Char) :=
  alts [d2In 20 23, d2In 0 19, d1In 0 9]

/-- Source: `%M`: `[0-5]\d|\d`. -/
def pMinute : List Char → List (Nat × List Char) :=
  alts [d2In 0 59, d1In 0 9]

/-- Source: `%S`: `6[0-1]|[0-5]\d|\d`. -/
def pSecond : List Char → List (Nat × List Char) :=
  alts [d2In 60 61, d2In 0 59, d1In 0 9]

/-- Source: `%Y`: exactly four digits. -/
def pYear : List Char → Option (Nat × List Char)
  | a :: b :: c :: d :: rest =>
    if a.isDigit ∧ b.isDigit ∧ c.isDigit ∧ d.isDigit
    then some (((dval a * 10 + dval b) * 10 + dval c) * 10 + dval d, rest) else none
  | _ => none

/-- A literal character of the format string. -/
def plit (ch : Char) : List Char → Option (Unit × List Char)
  | c :: rest => if c = ch then some ((), rest) else none
  | [] => none

/-- Exactly `k` digits, accumulating their value. -/
def takeDigits : Nat → Nat → List Char → Option (Nat × List Char)
  | 0, acc, l => some (acc, l)
  | k + 1, acc, c :: rest =>
    if c.isDigit then takeDigits k (acc * 10 + dval c) rest else none
  | _ + 1, _, [] => none

/-- Source: `k` fraction digits, zero-padded on the right to microseconds. -/
def pFracK (k : Nat) (l : List Char) : Option (Nat × List Char) :=
  (takeDigits k 0 l).map (fun r => (r.1 * 10 ^ (6 - k), r.2))

/-- Source: `%f`: `[0-9]{1,6}`, greedy. -/
def pFrac : List Char → List (Nat × List Char) :=
  alts [pFracK 6, pFracK 5, pFracK 4, pFracK 3, pFracK 2, pFracK 1]

/-- The fields captured by one `strptime` parse. -/
structure ParsedTime where
  y : Nat
  mo : Nat
  d : Nat
  hh : Nat
  mi : Nat
  ss : Nat
  micro : Nat
deriving DecidableEq

/-- One of the four format strings, identified by its two varying
aspects: date separator (`%Y-%m-%d` vs `%Y%m%d`) and presence of a
fractional-seconds field. -/
structure Fmt where
  dash : Bool
  frac : Bool
deriving DecidableEq

/-- The fixed ordered pattern list of `parse_time_ms`:
`"%Y%m%d %H:%M:%S.%f"`, `"%Y%m%d %H:%M:%S"`,
`"%Y-%m-%d %H:%M:%S.%f"`, `"%Y-%m-%d %H:%M:%S"`. -/
def patterns : List Fmt :=
  [⟨false, true⟩, ⟨false, false⟩, ⟨true, true⟩, ⟨true, false⟩]

/-- An optional `-` literal depending on the date shape. -/
def pDash (dash : Bool) (l : List Char) : List (List Char) :=
  if dash then ((plit '-' l).toList).map (fun r => r.2) else [l]

/-- All prefix parses of one format, in backtracking-preference order. -/
def parseFmt (f : Fmt) (l : List Char) : List (ParsedTime × List Char) :=
  ((pYear l).toList).flatMap fun yr =>
  (pDash f.dash yr.2).flatMap fun l2 =>
  (pMonth l2).flatMap fun mo =>
  (pDash f.dash mo.2).flatMap fun l3 =>
  (pDay l3).flatMap fun dy =>
  (((plit ' ' dy.2).toList).map (fun r => r.2)).flatMap fun l4 =>
  (pHour l4).flatMap fun hr =>
  (((plit ':' hr.2).toList).map (fun r => r.2)).flatMap fun l5 =>
  (pMinute l5).flatMap fun mi =>
  (((plit ':' mi.2).toList).map (fun r => r.2)).flatMap fun l6 =>
  (pSecond l6).flatMap fun sc =>
  (if f.frac
   then (((plit '.' sc.2).toList).map (fun r => r.2)).flatMap pFrac
   else [(0, sc.2)]).map fun fr =>
  (⟨yr.1, mo.1, dy.1, hr.1, mi.1, sc.1, fr.1⟩, fr.2)

/-- Gregorian leap year. -/
def isLeapYear (y : Nat) : Bool :=
  (y % 4 == 0 && y % 100 != 0) || (y % 400 == 0)

/-- Days in a month, as validated by the `datetime` constructor. -/
def daysInMonth (y m : Nat) : Nat :=
  if m = 2 then (if isLeapYear y then 29 else 28)
  else if m = 4 ∨ m = 6 ∨ m = 9 ∨ m = 11 then 30 else 31

/-- Source: `datetime.strptime(l, fmt)`: the regex-preferred prefix parse must
consume the whole input and denote a valid datetime, else `ValueError`
(modelled as `none`). -/
def strptime (f : Fmt) (l : List Char) : Option ParsedTime :=
  match parseFmt f l with
  | [] => none
  | (pt, rest) :: _ =>
    if rest = [] ∧ 1 ≤ pt.y ∧ pt.d ≤ daysInMonth pt.y pt.mo ∧ pt.ss ≤ 59
    then some pt else none

/-- Days since 1970-01-01 of a Gregorian date (civil-days formula). -/
def daysFromCivil (y m d : Int) : Int :=
  let y1 := if m ≤ 2 then y - 1 else y
  let era := if 0 ≤ y1 then y1 / 400 else (y1 - 399) / 400
  let yoe := y1 - era * 400
  let mp := if 2 < m then m - 3 else m + 9
  let doy := (153 * mp + 2) / 5 + d - 1
  let doe := yoe * 365 + yoe / 4 - yoe / 100 + doy
  era * 146097 + doe - 719468

/-- Source: `int(datetime(...).timestamp() * 1000)` with a zero UTC offset. -/
def toEpochMs (pt : ParsedTime) : Int :=
  (daysFromCivil pt.y pt.mo pt.d * 86400
     + (pt.hh : Int) * 3600 + (pt.mi : Int) * 60 + (pt.ss : Int)) * 1000
  + (pt.micro : Int) / 1000

/-- The `for pattern in patterns: try ... except ValueError: continue`
loop. -/
def tryPatterns : List Fmt → List Char → Option Int
  | [], _ => none
  | f :: fs, l =>
    match strptime f l with
    | some pt => some (toEpochMs pt)
    | none => tryPatterns fs l

/-- Source: `parse_time_ms`. -/
def parse_time_ms (value : Option String) : Option Int :=
  match value with
  | none => none
  | some s => if s = "" then none else tryPatterns patterns s.data

/-! Component DocStepVisitor (step extraction):

per the spec's design note, the visitor-driven traversal is re-expressed
as a fold over the materialized ordered sequence of keyword-invocation
nodes, threading the counter explicitly. -/

/-- One keyword-invocation node of the result tree, with the attributes
`end_keyword` reads (`getattr` defaults modelled as `Option`). -/
structure Keyword where
  status : String
  kwname : String
  args : List String
  starttime : Option String
  elapsedtime : Option Int

/-- The fixed documentation-keyword set. -/
def DOC_KEYWORDS : List String := ["Doc Web Step", "Doc Desktop Step"]

/-- The guard of `end_keyword`: the invocation produces a step unless
`status != "PASS" or kwname not in DOC_KEYWORDS`. -/
def isMatch (kw : Keyword) : Bool :=
  kw.status == "PASS" && DOC_KEYWORDS.contains kw.kwname

/-- The step record built for one matching invocation, `counter` being
the already-incremented counter value. -/
def buildStep (output_dir : String) (counter : Nat) (kw : Keyword) : Dict :=
  let step_id :=
    match kw.args[0]? with
    | some a => if a == "" then "step-" ++ toString counter else a
    | none => "step-" ++ toString counter
  let title :=
    match kw.args[1]? with
    | some a => if a == "" then step_id else a
    | none => step_id
  let description := (kw.args[2]?).getD ""
  let image_path := output_dir ++ "/screenshots/" ++ step_id ++ ".png"
  let start_ms := parse_time_ms kw.starttime
  let elapsed_ms := (kw.elapsedtime.getD 0)
  let end_ms := start_ms.map (fun v => v + elapsed_ms)
  [("id", Json.str step_id), ("title", Json.str title),
   ("imagePath", Json.str image_path)]
  ++ (if description == "" then [] else [("description", Json.str description)])
  ++ (match start_ms with
      | some v => [("startedAtMs", Json.num v)]
      | none => [])
  ++ (match end_ms with
      | some v => [("endedAtMs", Json.num v)]
      | none => [])

/-- The visitor pass: `self.counter` starts at the first argument,
is incremented once per matching invocation (before the fallback-id
computation inside `buildStep`), and non-matching invocations are
skipped. -/
def visitFold (output_dir : String) : Nat → List Keyword → List Dict
  | _, [] => []
  | counter, kw :: rest =>
    if isMatch kw
    then buildStep output_dir (counter + 1) kw :: visitFold output_dir (counter + 1) rest
    else visitFold output_dir counter rest

/-- Source: `DocStepVisitor` run over the whole tree: counter initialized to
zero, steps in traversal order. -/
def extractSteps (output_dir : String) (invs : List Keyword) : List Dict :=
  visitFold output_dir 0 invs

/-- Numbering combinator used to state the counter claim: applies `f` to
successive counter values `n+1, n+2, ...` along the list. -/
def mapCount (f : Nat → Keyword → Dict) : Nat → List Keyword → List Dict
  | _, [] => []
  | n, kw :: rest => f (n + 1) kw :: mapCount f (n + 1) rest

/-! Component main. -/

/-- The manifest file at the resolved path: absent, present but not
valid JSON (with the propagated parse error), or parsed to its
top-level JSON object. -/
inductive ManifestFile where
  | absent
  | malformed (err : String)
  | parsed (kvs : Dict)

/-- The environment `main` runs in: CLI arguments, the filesystem
existence predicate, the manifest file at the resolved path, the suite
name of the loaded result, and the result tree's keyword invocations in
traversal order. -/
structure Env where
  suite_id : Option String
  video_path : Option String
  fs : String → Bool
  manifest : ManifestFile
  suiteName : Option String
  output_dir : String
  invocations : List Keyword

/-- Source: `result.suite.name if result.suite and result.suite.name else
"Robot Suite"`. -/
def suiteNameOf : Option String → String
  | some n => if n == "" then "Robot Suite" else n
  | none => "Robot Suite"

/-- Source: `args.suite_id or sanitize_id(suite_name)`. -/
def scenarioIdOf (suite_id : Option String) (suite_name : String) : String :=
  match suite_id with
  | some s => if s == "" then sanitize_id suite_name else s
  | none => sanitize_id suite_name

/-- The artifact dict built in the manifest branch. -/
def manifestArtifact (scenario_id suite_name : String) (kvs : Dict) : Dict :=
  [("scenarioId", Json.str scenario_id),
   ("title", Json.str suite_name),
   ("steps", (dget kvs "steps").getD (Json.arr [])),
   ("videoPath", (dget kvs "videoPath").getD Json.null),
   ("rawVideoPath", (dget kvs "rawVideoPath").getD Json.null)]

/-- The artifact dict built in the extraction branch. -/
def extractArtifact (scenario_id suite_name output_dir : String)
    (invs : List Keyword) : Dict :=
  [("scenarioId", Json.str scenario_id),
   ("title", Json.str suite_name),
   ("steps", Json.arr ((extractSteps output_dir invs).map Json.obj))]

/-- Source: `if args.video_path and Path(args.video_path).exists() and not
artifacts.get("videoPath"): ...`. -/
def backfillVideo (video_path : Option String) (fs : String → Bool)
    (a : Dict) : Dict :=
  match video_path with
  | none => a
  | some p =>
    if (p != "") && fs p && !(truthyOpt (dget a "videoPath"))
    then dset (dset a "videoPath" (Json.str p)) "rawVideoPath" (Json.str p)
    else a

/-- The source's `main` (that name is reserved in Lean), returning the
artifact dict written to `--artifacts-json`, or the fatal error
propagated from parsing a malformed manifest. -/
def mainRun (env : Env) : Except String Dict :=
  let suite_name := suiteNameOf env.suiteName
  let scenario_id := scenarioIdOf env.suite_id suite_name
  match env.manifest with
  | .malformed e => Except.error e
  | .parsed kvs =>
    Except.ok (backfillVideo env.video_path env.fs
      (manifestArtifact scenario_id suite_name kvs))
  | .absent =>
    Except.ok (backfillVideo env.video_path env.fs
      (extractArtifact scenario_id suite_name env.output_dir env.invocations))

/-- Key lookup on the artifact `main` writes (`none` when the run
failed). -/
def resultGet (env : Env) (k : String) : Option Json :=
  match mainRun env with
  | .ok a => dget a k
  | .error _ => none

/-! Concrete inputs used by the closed witness and counterexample
theorems below. -/

/-- Environment whose manifest provides a `steps` list while the result
tree also contains a matching invocation. -/
def envC1 : Env := Env.mk none none (fun _ => false)
  (ManifestFile.parsed [("steps", Json.arr [Json.str "s1"])]) (some "S") "od"
  [Keyword.mk "PASS" "Doc Web Step" ["a"] none none]

/-- Environment whose manifest provides only `rawVideoPath`, with an
existing CLI-supplied video file. -/
def envC3 : Env := Env.mk none (some "c.mp4") (fun s => s == "c.mp4")
  (ManifestFile.parsed [("rawVideoPath", Json.str "m.mp4")]) (some "S") "od" []

/-- Environment with no manifest and an existing CLI-supplied video
file. -/
def envC3b : Env := Env.mk none (some "c.mp4") (fun s => s == "c.mp4")
  ManifestFile.absent (some "S") "od" []

/-- Environment whose manifest is the empty JSON object and with no CLI
video path. -/
def envC4 : Env := Env.mk none none (fun _ => false)
  (ManifestFile.parsed []) (some "S") "od" []

/-- Environment whose manifest file exists but holds invalid JSON. -/
def envC8 : Env := Env.mk none none (fun _ => false)
  (ManifestFile.malformed "Expecting value: line 1 column 1") (some "S") "od"
  [Keyword.mk "PASS" "Doc Web Step" ["a"] none none]

/-- Environment with `--suite-id` supplied as the empty string. -/
def envC10 : Env := Env.mk (some "") none (fun _ => false)
  ManifestFile.absent (some "My Suite") "od" []

/-- A passing documentation-step invocation with no arguments. -/
def kwNoId : Keyword := Keyword.mk "PASS" "Doc Web Step" [] none none

/-- A failing documentation-step invocation. -/
def kwFail : Keyword := Keyword.mk "FAIL" "Doc Web Step" ["x"] none none

/-- A passing invocation with a parseable start time and zero elapsed
time. -/
def kwTimed : Keyword :=
  Keyword.mk "PASS" "Doc Web Step" ["a"] (some "20240101 10:00:00.500") (some 0)

/-! Helper lemmas about the dict operations and the two artifact
shapes. -/

theorem dget_dset_self (a : Dict) (k : String) (v : Json) :
    dget (dset a k v) k = some v := by
  induction a with
  | nil => simp [dset, dget]
  | cons hd tl ih =>
    obtain ⟨k', v'⟩ := hd
    cases h : (k' == k) with
    | true => simp [dset, dget, h]
    | false => simp [dset, dget, h, ih]

theorem dget_dset_ne (a : Dict) (k k' : String) (v : Json) (h : k ≠ k') :
    dget (dset a k v) k' = dget a k' := by
  induction a with
  | nil => simp [dset, dget, h]
  | cons hd tl ih =>
    obtain ⟨k0, v0⟩ := hd
    cases h0 : (k0 == k) with
    | true =>
      have : k0 = k := by simpa using h0
      subst this
      simp [dset, dget, h0, h]
    | false => simp [dset, dget, h0, ih]

theorem dget_backfill_other (vp : Option String) (fs : String → Bool) (a : Dict)
    (k : String) (h1 : k ≠ "videoPath") (h2 : k ≠ "rawVideoPath") :
    dget (backfillVideo vp fs a) k = dget a k := by
  cases vp with
  | none => rfl
  | some p =>
    simp only [backfillVideo]
    split
    · rw [dget_dset_ne _ _ _ _ (fun e => h2 e.symm),
        dget_dset_ne _ _ _ _ (fun e => h1 e.symm)]
    · rfl

theorem backfill_applies (p : String) (fs : String → Bool) (a : Dict)
    (hp : p ≠ "") (hfs : fs p = true)
    (hv : truthyOpt (dget a "videoPath") = false) :
    backfillVideo (some p) fs a
      = dset (dset a "videoPath" (Json.str p)) "rawVideoPath" (Json.str p) := by
  simp [backfillVideo, hfs, hv, bne_iff_ne, hp]

theorem backfill_skips (vp : Option String) (fs : String → Bool) (a : Dict)
    (hv : truthyOpt (dget a "videoPath") = true) :
    backfillVideo vp fs a = a := by
  cases vp with
  | none => rfl
  | some p => simp [backfillVideo, hv]

theorem dget_manifestArtifact_steps (sid sn : String) (kvs : Dict) :
    dget (manifestArtifact sid sn kvs) "steps"
      = some ((dget kvs "steps").getD (Json.arr [])) := rfl

theorem dget_manifestArtifact_video (sid sn : String) (kvs : Dict) :
    dget (manifestArtifact sid sn kvs) "videoPath"
      = some ((dget kvs "videoPath").getD Json.null) := rfl

theorem dget_manifestArtifact_rawvideo (sid sn : String) (kvs : Dict) :
    dget (manifestArtifact sid sn kvs) "rawVideoPath"
      = some ((dget kvs "rawVideoPath").getD Json.null) := rfl

theorem dget_extractArtifact_video (sid sn od : String) (invs : List Keyword) :
    dget (extractArtifact sid sn od invs) "videoPath" = none := rfl

/-! Helper lemmas about the extraction fold. -/

theorem visitFold_eq_mapCount (d : String) (invs : List Keyword) : ∀ c,
    visitFold d c invs = mapCount (buildStep d) c (invs.filter isMatch) := by
  induction invs with
  | nil => intro c; rfl
  | cons kw rest ih =>
    intro c
    cases h : isMatch kw with
    | true => simp [visitFold, h, List.filter_cons, mapCount, ih]
    | false => simp [visitFold, h, List.filter_cons, ih]

theorem length_mapCount (f : Nat → Keyword → Dict) :
    ∀ n l, (mapCount f n l).length = l.length := by
  intro n l
  induction l generalizing n with
  | nil => rfl
  | cons kw rest ih => simp [mapCount, ih]

theorem mem_mapCount (f : Nat → Keyword → Dict) :
    ∀ {n : Nat} {l : List Keyword} {s : Dict}, s ∈ mapCount f n l →
      ∃ m kw, kw ∈ l ∧ s = f m kw := by
  intro n l
  induction l generalizing n with
  | nil => intro s h; cases h
  | cons kw rest ih =>
    intro s h
    rcases List.mem_cons.mp h with h | h
    · exact ⟨n + 1, kw, List.mem_cons_self _ _, h⟩
    · obtain ⟨m, kw', hmem, heq⟩ := ih h
      exact ⟨m, kw', List.mem_cons_of_mem _ hmem, heq⟩

theorem isMatch_iff (kw : Keyword) :
    isMatch kw = true ↔ (kw.status = "PASS" ∧ kw.kwname ∈ DOC_KEYWORDS) := by
  simp [isMatch, List.elem_iff]

theorem dget_buildStep_id_fallback (d : String) (n : Nat) (kw : Keyword)
    (h : kw.args[0]? = none ∨ kw.args[0]? = some "") :
    dget (buildStep d n kw) "id" = some (Json.str ("step-" ++ toString n)) := by
  rcases h with h | h <;> simp [buildStep, h, dget]

theorem dget_buildStep_started (d : String) (n : Nat) (kw : Keyword) :
    dget (buildStep d n kw) "startedAtMs"
      = (parse_time_ms kw.starttime).map Json.num := by
  rcases h : parse_time_ms kw.starttime with _ | v <;>
    simp [buildStep, h, dget] <;> split <;> simp [dget]

theorem dget_buildStep_ended (d : String) (n : Nat) (kw : Keyword) :
    dget (buildStep d n kw) "endedAtMs"
      = (parse_time_ms kw.starttime).map
          (fun v => Json.num (v + kw.elapsedtime.getD 0)) := by
  rcases h : parse_time_ms kw.starttime with _ | v <;>
    simp [buildStep, h, dget] <;> split <;> simp [dget]

/-! Helper lemmas about sanitization. -/

theorem mem_collapseRuns :
    ∀ (b : Bool) (l : List Nat) (c : Nat), c ∈ collapseRuns b l →
      c = 45 ∨ (isAlnumCode c = true ∧ c ∈ l) := by
  intro b l
  induction l generalizing b with
  | nil => intro c h; cases h
  | cons a rest ih =>
    intro c h
    by_cases ha : isAlnumCode a = true
    · rw [collapseRuns, if_pos ha] at h
      rcases List.mem_cons.mp h with rfl | h
      · exact Or.inr ⟨ha, List.mem_cons_self _ _⟩
      · rcases ih false c h with h | ⟨h1, h2⟩
        · exact Or.inl h
        · exact Or.inr ⟨h1, List.mem_cons_of_mem _ h2⟩
    · rw [collapseRuns, if_neg ha] at h
      have step : c = 45 ∨ c ∈ collapseRuns true rest := by
        cases b with
        | true => exact Or.inr (by simpa using h)
        | false =>
          rcases List.mem_cons.mp (by simpa using h) with rfl | h
          · exact Or.inl rfl
          · exact Or.inr h
      rcases step with rfl | h
      · exact Or.inl rfl
      · rcases ih true c h with h | ⟨h1, h2⟩
        · exact Or.inl h
        · exact Or.inr ⟨h1, List.mem_cons_of_mem _ h2⟩

theorem lowerCode_alnum (n : Nat) (h : isAlnumCode (lowerCode n) = true) :
    (48 ≤ lowerCode n ∧ lowerCode n ≤ 57)
      ∨ (97 ≤ lowerCode n ∧ lowerCode n ≤ 122) := by
  revert h
  simp only [lowerCode, isAlnumCode, Bool.or_eq_true, Bool.and_eq_true,
    decide_eq_true_eq]
  split <;> omega

theorem mem_stripDashes (l : List Nat) (c : Nat) (h : c ∈ stripDashes l) :
    c ∈ l := by
  rw [stripDashes] at h
  rw [List.mem_reverse] at h
  have h := (List.dropWhile_sublist _).mem h
  rw [List.mem_reverse] at h
  exact (List.dropWhile_sublist _).mem h

theorem head?_dropWhile_not (p : Nat → Bool) :
    ∀ (l : List Nat) (c : Nat), (l.dropWhile p).head? = some c → p c = false := by
  intro l
  induction l with
  | nil => intro c h; cases h
  | cons a rest ih =>
    intro c h
    rw [List.dropWhile_cons] at h
    by_cases hp : p a = true
    · rw [if_pos hp] at h
      exact ih c h
    · rw [if_neg hp] at h
      cases h
      exact Bool.not_eq_true _ |>.mp hp

theorem getLast?_stripDashes (l : List Nat) :
    (stripDashes l).getLast? ≠ some 45 := by
  rw [stripDashes, List.getLast?_reverse]
  intro h
  have h45 := head?_dropWhile_not _ _ _ h
  simp at h45

theorem head?_stripDashes (l : List Nat) :
    (stripDashes l).head? ≠ some 45 := by
  rw [stripDashes, List.head?_reverse]
  intro h
  have hBne : (l.dropWhile (· == 45)).reverse.dropWhile (· == 45) ≠ [] := by
    intro he
    rw [he] at h
    cases h
  obtain ⟨t, ht⟩ := List.dropWhile_suffix (l := (l.dropWhile (· == 45)).reverse)
    (fun c => c == 45)
  have hlast : ((l.dropWhile (· == 45)).reverse).getLast? = some 45 := by
    rw [← ht, List.getLast?_append_of_ne_nil t hBne, h]
  rw [List.getLast?_reverse] at hlast
  have h45 := head?_dropWhile_not _ _ _ hlast
  simp at h45

/-! Helper lemmas about the timestamp pattern loop. -/

theorem strptime_nil (f : Fmt) : strptime f [] = none := by
  cases f with
  | mk dash frac => rfl

theorem tryPatterns_none :
    ∀ (fs : List Fmt) (l : List Char),
      (∀ f ∈ fs, strptime f l = none) → tryPatterns fs l = none := by
  intro fs
  induction fs with
  | nil => intro l _; rfl
  | cons f rest ih =>
    intro l h
    rw [tryPatterns, h f (List.mem_cons_self _ _)]
    exact ih l (fun g hg => h g (List.mem_cons_of_mem _ hg))

theorem tryPatterns_first :
    ∀ (pre : List Fmt) (f : Fmt) (post : List Fmt) (l : List Char)
      (pt : ParsedTime),
      (∀ g ∈ pre, strptime g l = none) → strptime f l = some pt →
      tryPatterns (pre ++ f :: post) l = some (toEpochMs pt) := by
  intro pre
  induction pre with
  | nil =>
    intro f post l pt _ hf
    rw [List.nil_append, tryPatterns, hf]
  | cons g rest ih =>
    intro f post l pt hpre hf
    rw [List.cons_append, tryPatterns, hpre g (List.mem_cons_self _ _)]
    exact ih f post l pt (fun g' hg => hpre g' (List.mem_cons_of_mem _ hg)) hf

/-! Claim theorems. -/

/-- C1: if the resolved manifest file exists and parses, the output
artifact's `steps` is the manifest's `steps` verbatim (empty sequence
when absent), and no step extraction is performed: the run's outcome is
identical for every result tree, so `steps` is never merged or
interleaved from both sources. -/
theorem manifest_steps_verbatim (env : Env) (kvs : Dict)
    (h : env.manifest = ManifestFile.parsed kvs) :
    (∃ a, mainRun env = Except.ok a ∧
       dget a "steps" = some ((dget kvs "steps").getD (Json.arr []))) ∧
    (∀ invs : List Keyword,
      mainRun { env with invocations := invs } = mainRun env) := by
  constructor
  · refine ⟨backfillVideo env.video_path env.fs
      (manifestArtifact (scenarioIdOf env.suite_id (suiteNameOf env.suiteName))
        (suiteNameOf env.suiteName) kvs), ?_, ?_⟩
    · simp [mainRun, h]
    · rw [dget_backfill_other _ _ _ _ (by decide) (by decide),
        dget_manifestArtifact_steps]
  · intro invs
    simp [mainRun, h]

/-- Closed witness for C1: with a manifest providing `steps` and a
result tree containing a matching invocation, the output `steps` is the
manifest's list. -/
theorem c1_witness :
    resultGet envC1 "steps" = some (Json.arr [Json.str "s1"]) := by
  obtain ⟨a, ha, hs⟩ :=
    (manifest_steps_verbatim envC1 [("steps", Json.arr [Json.str "s1"])] rfl).1
  rw [resultGet, ha]
  exact hs

/-- C2: the extraction pass equals numbering the matching invocations
`1, 2, ...` in encounter order — the counter starts at zero, is bumped
exactly once per matching invocation before the fallback-id computation
(`mapCount` hands `buildStep` the already-incremented value), and
non-matching invocations are skipped without consuming a counter slot;
a matching invocation with an absent or empty first argument gets the
synthesized id `step-<n>`. -/
theorem counter_numbers_matches (d : String) (invs : List Keyword) :
    extractSteps d invs = mapCount (buildStep d) 0 (invs.filter isMatch) ∧
    (∀ (n : Nat) (kw : Keyword),
      kw.args[0]? = none ∨ kw.args[0]? = some "" →
      dget (buildStep d n kw) "id"
        = some (Json.str ("step-" ++ toString n))) := by
  exact ⟨visitFold_eq_mapCount d invs 0,
    fun n kw h => dget_buildStep_id_fallback d n kw h⟩

/-- Closed witness for C2: a failing invocation followed by an
argument-less passing one; the passing one is numbered 1 and gets
fallback id `step-1`. -/
theorem c2_witness :
    extractSteps "od" [kwFail, kwNoId]
      = mapCount (buildStep "od") 0 ([kwFail, kwNoId].filter isMatch) ∧
    dget (buildStep "od" 1 kwNoId) "id"
      = some (Json.str ("step-" ++ toString 1)) :=
  ⟨(counter_numbers_matches "od" [kwFail, kwNoId]).1,
   (counter_numbers_matches "od" [kwFail, kwNoId]).2 1 kwNoId (Or.inl rfl)⟩

/-- C3 counterexample: the claim "a CLI-supplied video path never
overrides a manifest-provided video path" is false.  With a manifest
providing only `rawVideoPath = "m.mp4"` and an existing CLI video
`c.mp4`, the backfill fires (it consults only `videoPath`) and
overwrites the manifest's `rawVideoPath` with `c.mp4`. -/
theorem c3_counterexample :
    dget [("rawVideoPath", Json.str "m.mp4")] "rawVideoPath"
      = some (Json.str "m.mp4") ∧
    envC3.manifest = ManifestFile.parsed [("rawVideoPath", Json.str "m.mp4")] ∧
    resultGet envC3 "rawVideoPath" = some (Json.str "c.mp4") ∧
    resultGet envC3 "videoPath" = some (Json.str "c.mp4") := ⟨rfl, rfl, rfl, rfl⟩

/-- C3 (amended): the CLI video path is written as both `videoPath` and
`rawVideoPath` when (a) a non-empty path was supplied, (b) the file
exists, and (c) the artifact's `videoPath` field specifically is absent
or falsy — only `videoPath` is consulted, so a manifest whose
`videoPath` is truthy keeps both of its fields, while a manifest
providing only `rawVideoPath` has it overridden; in the no-manifest
case with an existing file the output has
`videoPath = rawVideoPath = <path>`. -/
theorem video_backfill :
    (∀ (env : Env) (p : String), env.manifest = ManifestFile.absent →
      env.video_path = some p → p ≠ "" → env.fs p = true →
      ∃ a, mainRun env = Except.ok a ∧
        dget a "videoPath" = some (Json.str p) ∧
        dget a "rawVideoPath" = some (Json.str p)) ∧
    (∀ (env : Env) (kvs : Dict) (p : String),
      env.manifest = ManifestFile.parsed kvs →
      env.video_path = some p → p ≠ "" → env.fs p = true →
      truthy ((dget kvs "videoPath").getD Json.null) = false →
      ∃ a, mainRun env = Except.ok a ∧
        dget a "videoPath" = some (Json.str p) ∧
        dget a "rawVideoPath" = some (Json.str p)) ∧
    (∀ (env : Env) (kvs : Dict) (v : Json),
      env.manifest = ManifestFile.parsed kvs →
      dget kvs "videoPath" = some v → truthy v = true →
      ∃ a, mainRun env = Except.ok a ∧
        dget a "videoPath" = some v ∧
        dget a "rawVideoPath" = some ((dget kvs "rawVideoPath").getD Json.null)) := by
  refine ⟨?_, ?_, ?_⟩
  · intro env p h hvp hp hfs
    refine ⟨backfillVideo env.video_path env.fs
      (extractArtifact (scenarioIdOf env.suite_id (suiteNameOf env.suiteName))
        (suiteNameOf env.suiteName) env.output_dir env.invocations),
      by simp [mainRun, h], ?_⟩
    rw [hvp, backfill_applies p env.fs _ hp hfs
      (by rw [dget_extractArtifact_video]; rfl)]
    constructor
    · rw [dget_dset_ne _ _ _ _ (by decide), dget_dset_self]
    · rw [dget_dset_self]
  · intro env kvs p h hvp hp hfs htr
    refine ⟨backfillVideo env.video_path env.fs
      (manifestArtifact (scenarioIdOf env.suite_id (suiteNameOf env.suiteName))
        (suiteNameOf env.suiteName) kvs), by simp [mainRun, h], ?_⟩
    rw [hvp, backfill_applies p env.fs _ hp hfs
      (by rw [dget_manifestArtifact_video]; simpa using htr)]
    constructor
    · rw [dget_dset_ne _ _ _ _ (by decide), dget_dset_self]
    · rw [dget_dset_self]
  · intro env kvs v h hv htr
    refine ⟨backfillVideo env.video_path env.fs
      (manifestArtifact (scenarioIdOf env.suite_id (suiteNameOf env.suiteName))
        (suiteNameOf env.suiteName) kvs), by simp [mainRun, h], ?_⟩
    rw [backfill_skips _ _ _
      (by rw [dget_manifestArtifact_video, hv]; simpa using htr)]
    constructor
    · rw [dget_manifestArtifact_video, hv]; rfl
    · rw [dget_manifestArtifact_rawvideo]

/-- Closed witness for C3 (amended): in the no-manifest case with an
existing CLI video file both fields equal the supplied path. -/
theorem c3_witness :
    resultGet envC3b "videoPath" = some (Json.str "c.mp4") ∧
    resultGet envC3b "rawVideoPath" = some (Json.str "c.mp4") := by
  obtain ⟨a, ha, hv, hr⟩ :=
    video_backfill.1 envC3b "c.mp4" rfl rfl (by decide) rfl
  rw [resultGet, resultGet, ha]
  exact ⟨hv, hr⟩

/-- C4 counterexample: the claim that the written object contains no
`videoPath`/`rawVideoPath` key when the manifest lacks them is false.
With the empty-object manifest and no CLI video path, both keys are
present in the output, bound to JSON `null` (`manifest.get` returns
`None`, which `json.dumps` serializes as `null`). -/
theorem c4_counterexample :
    dget ([] : Dict) "videoPath" = none ∧
    dget ([] : Dict) "rawVideoPath" = none ∧
    resultGet envC4 "videoPath" = some Json.null ∧
    resultGet envC4 "rawVideoPath" = some Json.null := ⟨rfl, rfl, rfl, rfl⟩

/-- C4 (amended): in the manifest branch (no CLI backfill), `videoPath`
and `rawVideoPath` are taken verbatim from the manifest when present,
and when the manifest does not provide them the keys are still present
in the serialized object with value `null`. -/
theorem manifest_video_keys (env : Env) (kvs : Dict)
    (h : env.manifest = ManifestFile.parsed kvs) (hv : env.video_path = none) :
    ∃ a, mainRun env = Except.ok a ∧
      dget a "videoPath" = some ((dget kvs "videoPath").getD Json.null) ∧
      dget a "rawVideoPath" = some ((dget kvs "rawVideoPath").getD Json.null) := by
  refine ⟨backfillVideo env.video_path env.fs
    (manifestArtifact (scenarioIdOf env.suite_id (suiteNameOf env.suiteName))
      (suiteNameOf env.suiteName) kvs), by simp [mainRun, h], ?_, ?_⟩
  · rw [hv]; exact dget_manifestArtifact_video _ _ _
  · rw [hv]; exact dget_manifestArtifact_rawvideo _ _ _

/-- Closed witness for C4 (amended): the empty-object manifest yields
`null`-valued video keys. -/
theorem c4_witness :
    resultGet envC4 "videoPath"
      = some ((dget ([] : Dict) "videoPath").getD Json.null) ∧
    resultGet envC4 "rawVideoPath"
      = some ((dget ([] : Dict) "rawVideoPath").getD Json.null) := by
  obtain ⟨a, ha, hv, hr⟩ := manifest_video_keys envC4 [] rfl rfl
  rw [resultGet, resultGet, ha]
  exact ⟨hv, hr⟩

/-- C5: a Step record is produced for an invocation if and only if its
status is exactly the passing status (`"PASS"` in the result model) and
its name is in the fixed set {"Doc Web Step", "Doc Desktop Step"}: the
number of extracted steps equals the number of such invocations for
every traversed sequence, and a single invocation yields a step exactly
under that condition. -/
theorem step_iff_pass_and_doc (d : String) (invs : List Keyword) :
    (extractSteps d invs).length
      = (invs.filter fun kw =>
          decide (kw.status = "PASS" ∧ kw.kwname ∈ DOC_KEYWORDS)).length ∧
    (∀ kw : Keyword,
      extractSteps d [kw] ≠ []
        ↔ (kw.status = "PASS" ∧ kw.kwname ∈ DOC_KEYWORDS)) := by
  constructor
  · rw [extractSteps, visitFold_eq_mapCount, length_mapCount]
    congr 1
    apply List.filter_congr
    intro kw _
    rw [Bool.eq_iff_iff, isMatch_iff, decide_eq_true_iff]
  · intro kw
    rw [extractSteps]
    cases h : isMatch kw with
    | true =>
      simp only [visitFold, h, if_true]
      simpa using (isMatch_iff kw).mp h
    | false =>
      simp only [visitFold, h, if_false, Bool.false_eq_true, ne_eq,
        not_true_eq_false, false_iff]
      intro hc
      exact (Bool.false_ne_true (h ▸ (isMatch_iff kw).mpr hc))

/-- Closed witness for C5: a passing documentation step produces a step;
a failing one produces none. -/
theorem c5_witness :
    extractSteps "od" [kwNoId] ≠ [] ∧ extractSteps "od" [kwFail] = [] := by
  refine ⟨((step_iff_pass_and_doc "od" []).2 kwNoId).mpr ⟨rfl, by decide⟩, ?_⟩
  by_contra hne
  exact absurd (((step_iff_pass_and_doc "od" []).2 kwFail).mp hne) (by decide)

/-- C6: `sanitizeCodes` is total, never returns the empty sequence, its
output consists only of digits, lowercase ASCII letters and interior
hyphens (codepoint 45, never first or last), and it returns the fixed
fallback `"robot-suite"` exactly when the cleaned result (lower-case,
collapse non-alphanumeric runs to single hyphens, strip edge hyphens)
is empty. -/
theorem sanitize_total_slug (l : List Nat) :
    sanitizeCodes l ≠ [] ∧
    (∀ c ∈ sanitizeCodes l,
      (48 ≤ c ∧ c ≤ 57) ∨ (97 ≤ c ∧ c ≤ 122) ∨ c = 45) ∧
    (sanitizeCodes l).head? ≠ some 45 ∧
    (sanitizeCodes l).getLast? ≠ some 45 ∧
    (cleanedOf l = [] → sanitizeCodes l = fallbackSlug) ∧
    (cleanedOf l ≠ [] → sanitizeCodes l = cleanedOf l) := by
  by_cases hc : cleanedOf l = []
  · rw [sanitizeCodes, if_pos hc]
    exact ⟨by decide, by decide, by decide, by decide,
      fun _ => rfl, fun hne => absurd hc hne⟩
  · rw [sanitizeCodes, if_neg hc]
    refine ⟨hc, ?_, ?_, ?_, fun he => absurd he hc, fun _ => rfl⟩
    · intro c hcmem
      rw [cleanedOf] at hcmem
      have h1 := mem_stripDashes _ _ hcmem
      rcases mem_collapseRuns _ _ _ h1 with rfl | ⟨ha, hm⟩
      · right; right; rfl
      · obtain ⟨d, _, rfl⟩ := List.mem_map.mp hm
        rcases lowerCode_alnum d ha with h | h
        · left; exact h
        · right; left; exact h
    · rw [cleanedOf]
      exact head?_stripDashes _
    · rw [cleanedOf]
      exact getLast?_stripDashes _

/-- Closed witness for C6: the spec's two examples. -/
theorem c6_witness :
    sanitizeCodes (strCodes "My Test Suite!!") = strCodes "my-test-suite" ∧
    sanitizeCodes (strCodes "   ") = fallbackSlug ∧
    sanitizeCodes (strCodes "   ") ≠ [] :=
  ⟨((sanitize_total_slug (strCodes "My Test Suite!!")).2.2.2.2.2
      (by decide)).trans (by decide),
   (sanitize_total_slug (strCodes "   ")).2.2.2.2.1 (by decide),
   (sanitize_total_slug (strCodes "   ")).1⟩

/-- C7: the timestamp parser returns `none` for an absent or empty
input, tries the fixed ordered four-pattern list, returns `none` (never
an exception — the function is total) when no pattern parses, and
returns the epoch-millisecond conversion of the first pattern that
parses. -/
theorem parse_time_ms_spec :
    parse_time_ms none = none ∧
    parse_time_ms (some "") = none ∧
    (∀ s : String, (∀ f ∈ patterns, strptime f s.data = none) →
      parse_time_ms (some s) = none) ∧
    (∀ (s : String) (pre post : List Fmt) (f : Fmt) (pt : ParsedTime),
      patterns = pre ++ f :: post →
      (∀ g ∈ pre, strptime g s.data = none) →
      strptime f s.data = some pt →
      parse_time_ms (some s) = some (toEpochMs pt)) := by
  refine ⟨rfl, rfl, ?_, ?_⟩
  · intro s h
    simp only [parse_time_ms]
    split
    · rfl
    · exact tryPatterns_none _ _ h
  · intro s pre post f pt hpat hpre hf
    have hne : s ≠ "" := by
      intro he
      subst he
      rw [show ("" : String).data = [] from rfl, strptime_nil] at hf
      cases hf
    simp only [parse_time_ms]
    rw [if_neg hne, hpat]
    exact tryPatterns_first pre f post s.data pt hpre hf

/-- Closed witness for C7: the spec's examples — a fractional compact
timestamp parses via the first pattern to a concrete epoch-millisecond
value, and a non-date yields `none`. -/
theorem c7_witness :
    parse_time_ms (some "20240101 10:00:00.500")
      = some (toEpochMs ⟨2024, 1, 1, 10, 0, 0, 500000⟩) ∧
    toEpochMs ⟨2024, 1, 1, 10, 0, 0, 500000⟩ = 1704103200500 ∧
    parse_time_ms (some "not-a-date") = none :=
  ⟨parse_time_ms_spec.2.2.2 "20240101 10:00:00.500" []
     [⟨false, false⟩, ⟨true, true⟩, ⟨true, false⟩]
     ⟨false, true⟩ ⟨2024, 1, 1, 10, 0, 0, 500000⟩ rfl (by simp) (by decide),
   by decide,
   parse_time_ms_spec.2.2.1 "not-a-date" (by decide)⟩

/-- C8: if the manifest file exists but is not valid JSON, the run
fails fatally with the propagated parse error — no artifact is
produced, hence no fallback to step extraction. -/
theorem malformed_manifest_fatal (env : Env) (e : String)
    (h : env.manifest = ManifestFile.malformed e) :
    mainRun env = Except.error e := by
  simp [mainRun, h]

/-- Closed witness for C8: a malformed manifest aborts the run even
though the result tree contains a matching invocation. -/
theorem c8_witness :
    mainRun envC8 = Except.error "Expecting value: line 1 column 1" :=
  malformed_manifest_fatal envC8 _ rfl

/-- C9: in every extracted step, `endedAtMs` is present exactly when
`startedAtMs` is present; and when the invocation's elapsed time is
missing or zero, `endedAtMs` equals `startedAtMs` (the elapsed time
defaults to 0 rather than suppressing `endedAtMs`). -/
theorem ended_iff_started (d : String) :
    (∀ (invs : List Keyword) (s : Dict), s ∈ extractSteps d invs →
      ((dget s "endedAtMs").isSome ↔ (dget s "startedAtMs").isSome)) ∧
    (∀ (n : Nat) (kw : Keyword),
      kw.elapsedtime = none ∨ kw.elapsedtime = some 0 →
      dget (buildStep d n kw) "endedAtMs"
        = dget (buildStep d n kw) "startedAtMs") := by
  constructor
  · intro invs s hs
    rw [extractSteps, visitFold_eq_mapCount] at hs
    obtain ⟨m, kw, _, rfl⟩ := mem_mapCount _ hs
    rw [dget_buildStep_started, dget_buildStep_ended]
    cases parse_time_ms kw.starttime <;> simp
  · intro n kw h
    rw [dget_buildStep_started, dget_buildStep_ended]
    have h0 : kw.elapsedtime.getD 0 = 0 := by rcases h with h | h <;> simp [h]
    rw [h0]
    cases parse_time_ms kw.starttime <;> simp

/-- Closed witness for C9: a step with a parsed start time and zero
elapsed time has equal `startedAtMs` and `endedAtMs`, and their
presence coincides. -/
theorem c9_witness :
    ((dget (buildStep "od" 1 kwTimed) "endedAtMs").isSome
       ↔ (dget (buildStep "od" 1 kwTimed) "startedAtMs").isSome) ∧
    dget (buildStep "od" 1 kwTimed) "endedAtMs"
      = dget (buildStep "od" 1 kwTimed) "startedAtMs" :=
  ⟨(ended_iff_started "od").1 [kwTimed] _
     (by rw [show extractSteps "od" [kwTimed] = [buildStep "od" 1 kwTimed]
           from rfl]
         exact List.mem_singleton_self _),
   (ended_iff_started "od").2 1 kwTimed (Or.inr rfl)⟩

/-- C10: an empty-string `--suite-id` behaves like an absent flag — the
scenario id falls back to the sanitized suite name (Python `or`
truthiness), and the whole run is identical to one without the flag. -/
theorem empty_suite_id_falls_back (env : Env) (h : env.suite_id = some "") :
    (∀ sn, scenarioIdOf (some "") sn = sanitize_id sn) ∧
    mainRun env = mainRun { env with suite_id := none } := by
  refine ⟨fun sn => rfl, ?_⟩
  simp [mainRun, h, scenarioIdOf]

/-- Closed witness for C10: the empty override on a concrete
environment. -/
theorem c10_witness :
    scenarioIdOf (some "") "My Suite" = sanitize_id "My Suite" ∧
    mainRun envC10 = mainRun { envC10 with suite_id := none } :=
  ⟨(empty_suite_id_falls_back envC10 rfl).1 "My Suite",
   (empty_suite_id_falls_back envC10 rfl).2⟩
